import Mathlib

/-!
# clariplay: ScoreEditor and ScoreViewer

A shallow embedding of the two components of the repository,
`src/components/ScoreEditor.jsx` and `src/components/ScoreViewer.jsx`.

React state setters, browser calls and calls into the score renderer and the
audio library are recorded as effects in a trace, in program order.  JavaScript
numbers are modelled by exact rationals (`Rat`), so `0.2` is `1/5` and `0.5` is
`1/2`.  Values that may be `undefined` or `null` are `Option`s.
-/

namespace JS

/-- The test `s.includes(pat)`: `pat` occurs in `s` as a contiguous run. -/
def includes (s pat : String) : Bool :=
  decide (pat.data <:+: s.data)

/-- The call `s.replaceAll(c, r)` for a one-character pattern `c` and a
one-character replacement `r`: every occurrence of `c` becomes `r`. -/
def replaceAll (s : String) (c r : Char) : String :=
  String.mk (s.data.map (fun x => if x = c then r else x))

end JS

namespace ScoreEditor

/-! ## Data model of the rendered score read by `extractNotes` -/

/-- A tickable of a voice: `isRest` and the optional `halfTone`. -/
structure Tickable where
  isRest : Bool
  halfTone : Option Int
  deriving DecidableEq, Repr

/-- A voice of a measure: `voice.tickables`. -/
structure Voice where
  tickables : List Tickable
  deriving DecidableEq, Repr

/-- A measure of the sheet: `measure.voices`. -/
structure Measure where
  voices : List Voice
  deriving DecidableEq, Repr

/-- The renderer held in `osmdRef.current`; `measures` is `none` when `sheet`
is absent or has no `measures` field (`osmdRef.current.sheet?.measures`). -/
structure Osmd where
  measures : Option (List Measure)
  deriving DecidableEq, Repr

/-- The object pushed by `extractNotes`: `{ midi, duration }`. -/
structure NoteEvent where
  midi : Int
  duration : Rat
  deriving DecidableEq, Repr

/-- The effects of `extractNotes`: the state setter and the callback to the
parent, whose argument is `{ notes, audioUrl }`. -/
inductive EditorEffect where
  | setNoteEvents (notes : List NoteEvent)
  | onDataChange (notes : List NoteEvent) (audioUrl : Option String)
  | osmdLoad (xml : String)
  | osmdRender
  deriving DecidableEq, Repr

/-- The safety limit on processed measures (`Math.min(measures.length, 1000)`). -/
def measureLimit : Nat := 1000

/-- Body of the innermost loop: `if (!tickables.isRest) notes.push({...})`,
with `midi: (tickables.halfTone || 0) + 12` and `duration: 0.5`. -/
def pushTickable (notes : List NoteEvent) (t : Tickable) : List NoteEvent :=
  if !t.isRest then
    notes ++ [{ midi := (match t.halfTone with
                         | some h => if h = 0 then 0 else h
                         | none => 0) + 12,
                duration := 1 / 2 }]
  else notes

/-- The loop `for (const tickables of voice.tickables)`. -/
def pushVoice (notes : List NoteEvent) (v : Voice) : List NoteEvent :=
  v.tickables.foldl pushTickable notes

/-- The loop `for (const voice of measure.voices)`. -/
def pushMeasure (notes : List NoteEvent) (m : Measure) : List NoteEvent :=
  m.voices.foldl pushVoice notes

/-- The outer loop `for (let i = 0; i < Math.min(measures.length, 1000); i++)`
reading `measures[i]`, starting from `notes = []`. -/
def extractedNotes (measures : List Measure) : List NoteEvent :=
  (List.range (min measures.length measureLimit)).foldl
    (fun notes i =>
      match measures[i]? with
      | some measure => pushMeasure notes measure
      | none => notes)
    []

/-- The callback `extractNotes`: nothing when `osmdRef.current` is absent;
otherwise the notes of `sheet?.measures || []` are stored with `setNoteEvents`
and, when `onDataChange` is given, passed to it with `audioUrl: null`. -/
def extractNotes (osmd : Option Osmd) (hasOnDataChange : Bool) : List EditorEffect :=
  match osmd with
  | none => []
  | some o =>
    let measures := o.measures.getD []
    let notes := extractedNotes measures
    EditorEffect.setNoteEvents notes ::
      (if hasOnDataChange then [EditorEffect.onDataChange notes none] else [])

/-- The load effect of ScoreEditor (the third `useEffect`): it returns at once
when `xmlContent` is empty or absent, contains `<!ENTITY`, or the container is
absent; otherwise it loads and renders the score and extracts the notes.
`loadOk` tells whether `osmd.load` resolves; a rejection is caught and logged.
`measuresOf` is the renderer's view of the loaded text. -/
def loadEffect (xmlContent : Option String) (hasContainer : Bool) (loadOk : Bool)
    (measuresOf : String → Option (List Measure)) (hasOnDataChange : Bool) :
    List EditorEffect :=
  match xmlContent with
  | none => []
  | some xml =>
    if xml = "" || JS.includes xml "<!ENTITY" || !hasContainer then []
    else if loadOk then
      EditorEffect.osmdLoad xml :: EditorEffect.osmdRender ::
        extractNotes (some { measures := measuresOf xml }) hasOnDataChange
    else [EditorEffect.osmdLoad xml]

/-! ## What the loops compute -/

/-- The notes contributed by one tickable. -/
def tickableNotes (t : Tickable) : List NoteEvent :=
  if t.isRest then [] else [{ midi := t.halfTone.getD 0 + 12, duration := 1 / 2 }]

/-- All tickables of a list of measures, measure by measure, voice by voice. -/
def allTickables (measures : List Measure) : List Tickable :=
  measures.flatMap (fun m => m.voices.flatMap (fun v => v.tickables))

/-- A measure with one voice holding a note of the given `halfTone` followed
by a rest. -/
def noteMeasure (halfTone : Int) : Measure :=
  { voices := [{ tickables := [{ isRest := false, halfTone := some halfTone },
                               { isRest := true, halfTone := none }] }] }

end ScoreEditor

namespace ScoreViewer

/-! ## Data model of playback -/

/-- A parsed note `{ note, time, duration }` as `handlePlayScore` reads it:
`note` is the pitch name, `time` the start and `duration` the length as the
parser gives them; the part callback reads `duration` as beats
(`noteObj.duration * (60 / bpm)`). The events handed to `Tone.Part` have the
same fields, with `time` the transport time. -/
structure Note where
  note : String
  time : Rat
  duration : Rat
  deriving DecidableEq, Repr

/-- The result `{ notes, tempo }` of `parseMusicXMLToNotes`; either field may be
missing. -/
structure Parsed where
  notes : Option (List Note)
  tempo : Option Rat
  deriving DecidableEq, Repr

/-- The observable calls of the component, in program order. -/
inductive Effect where
  | alert (msg : String)
  | setPlaying (b : Bool)
  | setLoading (b : Bool)
  | setError (msg : Option String)
  | fetch (url : String)
  | parse (xmlString : String)
  | osmdLoad (xml : String)
  | osmdRender
  | newSampler
  | toneStart
  | toneLoaded
  | transportCancel
  | transportStop
  | transportSetBpm (bpm : Rat)
  | transportStart (offset : String)
  | cursorReset
  | cursorHide
  | cursorShow
  | cursorNext
  | newPart (bpm : Rat) (events : List Note)
  | partStart (offset : Rat)
  | partDispose
  | setTimeout (ms : Rat)
  | trigger (note : String) (durSeconds : Rat) (time : Rat)
  deriving DecidableEq, Repr

/-- What `handlePlayScore` finds when it is called. `sampler` is
`samplerRef.current` with its `loaded` flag, `hasOsmd` whether `osmdRef.current`
is set, `fetched` the text served at `xmlUrl` (`none` when the fetch rejects),
`parseMusicXMLToNotes` the parser of `../utils/parseMusicXMLToNotes` (`none`
when it throws), `toneOk` whether `Tone.start()` and `Tone.loaded()` resolve. -/
structure Env where
  sampler : Option Bool
  hasOsmd : Bool
  xmlUrl : String
  fetched : Option String
  parseMusicXMLToNotes : String → Option Parsed
  toneOk : Bool

/-- The text of the alert shown when the sampler or the renderer is not ready. -/
def notReadyMessage : String :=
  "El piano aún se está cargando, intenta en un segundo."

/-- The constant `delayBeforeStart = 0.2`. -/
def delayBeforeStart : Rat := 1 / 5

/-- The tempo used, `const bpm = tempo || 120`: a missing or zero tempo gives
120, any other value is kept. -/
def bpmOf (tempo : Option Rat) : Rat :=
  match tempo with
  | some t => if t = 0 then 120 else t
  | none => 120

/-- The events handed to `Tone.Part`:
`notes.map(n => ({ ...n, time: n.time + delayBeforeStart }))`. -/
def partEvents (notes : List Note) : List Note :=
  notes.map (fun n => { n with time := n.time + delayBeforeStart })

/-- The value `totalDuration`, from the last note `notes[notes.length - 1]`:
`time + duration + delayBeforeStart`. -/
def totalDuration (last : Note) : Rat :=
  last.time + last.duration + delayBeforeStart

/-- The delay given to `setTimeout`: `(totalDuration + 0.5) * 1000`. -/
def finalizeDelayMs (last : Note) : Rat :=
  (totalDuration last + 1 / 2) * 1000

/-- The body of the `setTimeout` callback of `handlePlayScore`. -/
def finalize : List Effect :=
  [Effect.transportStop, Effect.partDispose, Effect.cursorReset, Effect.cursorHide,
   Effect.setPlaying false]

/-- The range check of the assignment `Tone.Transport.bpm.value = bpm`: the
range of the transport's bpm starts at 0, and the setter throws a `RangeError`
on a value below it. -/
def transportAcceptsBpm (bpm : Rat) : Bool :=
  decide (0 ≤ bpm)

/-- The function `handlePlayScore`, up to its return: the trace of its calls.
A rejected fetch, a parser exception, a rejected `Tone.start()` or a bpm that
the transport refuses ends in the `catch`, which is `setPlaying(false)`; the
other calls on the transport, the cursor and the part are taken to return
normally. The part callback and the timer callback run later; see
`partCallback`, `transportRun` and `finalize`. -/
def handlePlayScore (env : Env) : List Effect :=
  if !(env.sampler.getD false) || !env.hasOsmd then
    [Effect.alert notReadyMessage]
  else
    Effect.setPlaying true :: Effect.fetch env.xmlUrl ::
    match env.fetched with
    | none => [Effect.setPlaying false]
    | some xmlString =>
      Effect.parse xmlString ::
      match env.parseMusicXMLToNotes xmlString with
      | none => [Effect.setPlaying false]
      | some parsed =>
        match parsed.notes with
        | none => [Effect.setPlaying false]
        | some [] => [Effect.setPlaying false]
        | some (n :: ns) =>
          if !env.toneOk then [Effect.toneStart, Effect.setPlaying false]
          else
            let notes := n :: ns
            let bpm := bpmOf parsed.tempo
            if !transportAcceptsBpm bpm then
              [Effect.toneStart, Effect.toneLoaded,
               Effect.transportCancel, Effect.transportStop, Effect.setPlaying false]
            else
              [Effect.toneStart, Effect.toneLoaded,
               Effect.transportCancel, Effect.transportStop, Effect.transportSetBpm bpm,
               Effect.cursorReset, Effect.cursorHide,
               Effect.newPart bpm (partEvents notes),
               Effect.partStart 0, Effect.transportStart "+0.1",
               Effect.setTimeout (finalizeDelayMs (notes.getLast (List.cons_ne_nil n ns)))]

/-- The value of the `playing` state after a trace: the argument of the last
`setPlaying`, or the value before when there is none. -/
def playingAfter (playing : Bool) : List Effect → Bool
  | [] => playing
  | Effect.setPlaying b :: rest => playingAfter b rest
  | _ :: rest => playingAfter playing rest

/-! ## The part callback and the cursor -/

/-- The score cursor of the renderer, seen through the three members the
callback uses: `cursor.show()`, `cursor.next()` and `cursor.iterator.EndReached`. -/
structure CursorModel (σ : Type) where
  onShow : σ → σ
  onNext : σ → σ
  endReached : σ → Bool

/-- The state shared by the callbacks of one playback: the local flag
`cursorMoved` and the cursor. -/
structure PlaybackState (σ : Type) where
  cursorMoved : Bool
  cursor : σ

/-- The callback given to `Tone.Draw.schedule`: show the cursor the first time,
afterwards advance it unless the iterator has reached the end. -/
def drawCallback {σ : Type} (M : CursorModel σ) (st : PlaybackState σ) :
    List Effect × PlaybackState σ :=
  if !st.cursorMoved then
    ([Effect.cursorShow], { cursorMoved := true, cursor := M.onShow st.cursor })
  else if !M.endReached st.cursor then
    ([Effect.cursorNext], { st with cursor := M.onNext st.cursor })
  else
    ([], st)

/-- The callback of the part, `(time, noteObj) => ...`: one call of
`triggerAttackRelease(note, durSeconds, time)` and one scheduled visual step,
which is run here right after the trigger. -/
def partCallback {σ : Type} (M : CursorModel σ) (bpm : Rat) (time : Rat) (noteObj : Note)
    (st : PlaybackState σ) : List Effect × PlaybackState σ :=
  let note := JS.replaceAll noteObj.note '#' 's'
  let durSeconds := noteObj.duration * (60 / bpm)
  let d := drawCallback M st
  (Effect.trigger note durSeconds time :: d.1, d.2)

/-- The events of a part fired in the order of the list, each with its own
transport time: per event, the cursor before it and the calls it makes. -/
def firePart {σ : Type} (M : CursorModel σ) (bpm : Rat) :
    List Note → PlaybackState σ → List (σ × List Effect)
  | [], _ => []
  | e :: es, st =>
    let r := partCallback M bpm e.time e st
    (st.cursor, r.1) :: firePart M bpm es r.2

/-- The delay of `Tone.Transport.start("+0.1")`: the transport starts 0.1 s
after the call, so an event of transport time `t` is due `0.1 + t` seconds
after it. -/
def transportStartDelay : Rat := 1 / 10

/-- The delay in milliseconds of the first timer set in a trace, if any. -/
def timerOf : List Effect → Option Rat
  | [] => none
  | Effect.setTimeout ms :: _ => some ms
  | _ :: rest => timerOf rest

/-- The events of a part that the transport fires, in firing order: by
transport time, events of equal time in the order of the list, and only those
due before the timer, whose callback stops the transport and disposes the
part. -/
def firedEvents (events : List Note) (timer : Option Rat) : List Note :=
  let byTime := events.insertionSort (fun a b => a.time ≤ b.time)
  match timer with
  | none => byTime
  | some ms => byTime.filter (fun e => decide ((transportStartDelay + e.time) * 1000 < ms))

/-- The calls made by the part callbacks once the transport runs the parts
created in a trace: each part fires the events that `firedEvents` gives for the
timer set after it, with `cursorMoved = false` at its creation. -/
def transportRun {σ : Type} (M : CursorModel σ) (c : σ) : List Effect → List Effect
  | [] => []
  | Effect.newPart bpm events :: rest =>
    ((firePart M bpm (firedEvents events (timerOf rest))
        { cursorMoved := false, cursor := c }).flatMap (fun s => s.2))
      ++ transportRun M c rest
  | _ :: rest => transportRun M c rest

/-- Whether an effect is a call on the cursor. -/
def isCursorCall : Effect → Bool
  | Effect.cursorReset => true
  | Effect.cursorHide => true
  | Effect.cursorShow => true
  | Effect.cursorNext => true
  | _ => false

/-- Whether an effect is a call of the synthesizer. -/
def isTrigger : Effect → Bool
  | Effect.trigger _ _ _ => true
  | _ => false

/-- Whether an effect is a call on `Tone.Transport`. -/
def isTransportCall : Effect → Bool
  | Effect.transportCancel => true
  | Effect.transportStop => true
  | Effect.transportSetBpm _ => true
  | Effect.transportStart _ => true
  | _ => false

/-- A cursor over a score of `len` steps, at position `pos`: `show` leaves the
position, `next` moves one step, the end is reached at `len`. -/
def counterCursor (len : Nat) : CursorModel Nat where
  onShow := fun pos => pos
  onNext := fun pos => pos + 1
  endReached := fun pos => decide (len ≤ pos)

/-- An environment in which playback can start: sampler loaded, renderer
present, the text `xml` served at `score.xml` and parsed to `parsed`, Tone
starting normally. -/
def readyEnv (xml : String) (parsed : Parsed) : Env where
  sampler := some true
  hasOsmd := true
  xmlUrl := "score.xml"
  fetched := some xml
  parseMusicXMLToNotes := fun _ => some parsed
  toneOk := true

/-- The scenario of the specification: C4 on beat 0 and E4 on beat 1, one beat
each. -/
def twoNotes : List Note :=
  [{ note := "C4", time := 0, duration := 1 }, { note := "E4", time := 1, duration := 1 }]

/-- A text that declares an entity. -/
def entityXml : String :=
  "<!DOCTYPE score-partwise [<!ENTITY who \"clariplay\">]><score-partwise>&who;</score-partwise>"

/-- The load effect of ScoreViewer (the third `useEffect`): nothing without
`xmlUrl`; otherwise the text is fetched, refused when it contains `<!ENTITY`,
else loaded and rendered; the sampler is created when absent. `loadOk` tells
whether `osmd.load` resolves, `errMsg` is the message of a rejection. -/
def loadEffect (xmlUrl : Option String) (fetched : Option String) (loadOk : Bool)
    (errMsg : String) (hasSampler : Bool) : List Effect :=
  match xmlUrl with
  | none => []
  | some url =>
    if url = "" then []
    else
      [Effect.setLoading true, Effect.setError none, Effect.fetch url] ++
      (if !hasSampler then [Effect.newSampler] else []) ++
      (match fetched with
       | none => [Effect.setError (some errMsg), Effect.setLoading false]
       | some xml =>
         if JS.includes xml "<!ENTITY" then
           [Effect.setError (some "Archivo XML no seguro."), Effect.setLoading false]
         else if loadOk then
           [Effect.osmdLoad xml, Effect.osmdRender, Effect.setLoading false]
         else
           [Effect.osmdLoad xml, Effect.setError (some errMsg), Effect.setLoading false])

end ScoreViewer

namespace ScoreEditor

theorem pushTickable_eq (notes : List NoteEvent) (t : Tickable) :
    pushTickable notes t = notes ++ tickableNotes t := by
  unfold pushTickable tickableNotes
  cases hr : t.isRest
  · cases hh : t.halfTone with
    | none => simp
    | some h => by_cases h0 : h = 0 <;> simp [h0]
  · simp

theorem pushVoice_eq (v : Voice) (notes : List NoteEvent) :
    pushVoice notes v = notes ++ v.tickables.flatMap tickableNotes := by
  unfold pushVoice
  generalize v.tickables = ts
  induction ts generalizing notes with
  | nil => simp
  | cons t ts ih => simp [List.foldl_cons, ih, pushTickable_eq, List.append_assoc]

theorem pushMeasure_eq (m : Measure) (notes : List NoteEvent) :
    pushMeasure notes m =
      notes ++ (m.voices.flatMap (fun v => v.tickables)).flatMap tickableNotes := by
  unfold pushMeasure
  generalize m.voices = vs
  induction vs generalizing notes with
  | nil => simp
  | cons v vs ih => simp [List.foldl_cons, ih, pushVoice_eq, List.append_assoc]

theorem foldl_range_measures (measures : List Measure) (k : Nat) (hk : k ≤ measures.length)
    (init : List NoteEvent) :
    (List.range k).foldl
        (fun notes i =>
          match measures[i]? with
          | some measure => pushMeasure notes measure
          | none => notes)
        init
      = init ++ (allTickables (measures.take k)).flatMap tickableNotes := by
  induction k with
  | zero => simp [allTickables]
  | succ k ih =>
    have hlt : k < measures.length := hk
    rw [List.range_succ, List.foldl_append, ih (Nat.le_of_lt hlt)]
    simp only [List.foldl_cons, List.foldl_nil, List.getElem?_eq_getElem hlt]
    rw [pushMeasure_eq]
    have htake : measures.take (k + 1) = measures.take k ++ [measures[k]] := by
      rw [List.take_succ, List.getElem?_eq_getElem hlt]
      rfl
    rw [htake]
    simp only [allTickables, List.flatMap_append, List.flatMap_cons, List.flatMap_nil,
      List.append_nil, List.append_assoc]

theorem extractedNotes_eq (measures : List Measure) :
    extractedNotes measures
      = (allTickables (measures.take 1000)).flatMap tickableNotes := by
  unfold extractedNotes measureLimit
  rw [foldl_range_measures measures _ (Nat.min_le_left _ _)]
  rcases Nat.le_total measures.length 1000 with h | h
  · rw [Nat.min_eq_left h, List.take_of_length_le (Nat.le_refl _), List.take_of_length_le h]
    simp
  · rw [Nat.min_eq_right h]
    simp

theorem flatMap_tickableNotes (ts : List Tickable) :
    ts.flatMap tickableNotes
      = (ts.filter (fun t => !t.isRest)).map
          (fun t => ({ midi := t.halfTone.getD 0 + 12, duration := 1 / 2 } : NoteEvent)) := by
  induction ts with
  | nil => rfl
  | cons t ts ih =>
    cases hr : t.isRest <;> simp [List.flatMap_cons, tickableNotes, hr, List.filter_cons, ih]

/-- The notes of a list made of one measure repeated, when that measure
yields one note. -/
theorem notes_of_replicate (m : Measure) (x : NoteEvent) (k : Nat)
    (hm : (allTickables [m]).flatMap tickableNotes = [x]) :
    (allTickables (List.replicate k m)).flatMap tickableNotes = List.replicate k x := by
  have hm1 : (m.voices.flatMap (fun v => v.tickables)).flatMap tickableNotes = [x] := by
    simpa [allTickables] using hm
  induction k with
  | zero => rfl
  | succ k ih =>
    have ih1 : ((List.replicate k m).flatMap
        (fun m => m.voices.flatMap (fun v => v.tickables))).flatMap tickableNotes
        = List.replicate k x := ih
    simp only [allTickables, List.replicate_succ, List.flatMap_cons, List.flatMap_append]
    rw [hm1, ih1]
    rfl

/-- C8: extractNotes on any list of measures stores with setNoteEvents, and
passes to onDataChange when it is given, exactly the notes of the tickables of
the list's first 1000 measures, which is what it does on measures.take 1000;
measures from index 1000 on contribute nothing (two lists with the same first
1000 measures give the same calls, 5000 equal measures give the notes of
1000), and a list of at most 1000 measures is processed in full. -/
theorem extractNotes_first_1000 (measures : List Measure) (hasOnDataChange : Bool) :
    extractNotes (some { measures := some measures }) hasOnDataChange
        = extractNotes (some { measures := some (measures.take 1000) }) hasOnDataChange
      ∧ extractNotes (some { measures := some measures }) hasOnDataChange
        = EditorEffect.setNoteEvents
            ((allTickables (measures.take 1000)).flatMap tickableNotes) ::
          (if hasOnDataChange then
            [EditorEffect.onDataChange
              ((allTickables (measures.take 1000)).flatMap tickableNotes) none]
           else [])
      ∧ extractedNotes measures = extractedNotes (measures.take 1000)
      ∧ extractedNotes measures
          = (allTickables (measures.take 1000)).flatMap tickableNotes
      ∧ (∀ other : List Measure, other.take 1000 = measures.take 1000 →
          extractedNotes other = extractedNotes measures
            ∧ extractNotes (some { measures := some other }) hasOnDataChange
              = extractNotes (some { measures := some measures }) hasOnDataChange)
      ∧ (∀ m : Measure,
          extractedNotes (List.replicate 5000 m) = extractedNotes (List.replicate 1000 m)
            ∧ extractNotes (some { measures := some (List.replicate 5000 m) }) hasOnDataChange
              = EditorEffect.setNoteEvents
                  ((allTickables (List.replicate 1000 m)).flatMap tickableNotes) ::
                (if hasOnDataChange then
                  [EditorEffect.onDataChange
                    ((allTickables (List.replicate 1000 m)).flatMap tickableNotes) none]
                 else []))
      ∧ (measures.length ≤ 1000 →
          extractedNotes measures = (allTickables measures).flatMap tickableNotes
            ∧ extractNotes (some { measures := some measures }) hasOnDataChange
              = EditorEffect.setNoteEvents ((allTickables measures).flatMap tickableNotes) ::
                (if hasOnDataChange then
                  [EditorEffect.onDataChange
                    ((allTickables measures).flatMap tickableNotes) none]
                 else [])) := by
  have hcap : extractedNotes measures = extractedNotes (measures.take 1000) := by
    rw [extractedNotes_eq, extractedNotes_eq, List.take_take]
    simp
  have hcalls : ∀ l : List Measure,
      extractNotes (some { measures := some l }) hasOnDataChange
        = EditorEffect.setNoteEvents ((allTickables (l.take 1000)).flatMap tickableNotes) ::
          (if hasOnDataChange then
            [EditorEffect.onDataChange
              ((allTickables (l.take 1000)).flatMap tickableNotes) none]
           else []) := by
    intro l
    simp [extractNotes, extractedNotes_eq]
  refine ⟨?_, hcalls measures, hcap, extractedNotes_eq measures, ?_, ?_, ?_⟩
  · simp [extractNotes, hcap]
  · intro other hother
    refine ⟨?_, ?_⟩
    · rw [extractedNotes_eq, extractedNotes_eq, hother]
    · rw [hcalls other, hcalls measures, hother]
  · intro m
    have htake : (List.replicate 5000 m).take 1000 = List.replicate 1000 m := by
      rw [List.take_replicate]
      rfl
    refine ⟨?_, ?_⟩
    · rw [extractedNotes_eq, extractedNotes_eq, htake, List.take_replicate]
      rfl
    · rw [hcalls, htake]
  · intro h
    refine ⟨?_, ?_⟩
    · rw [extractedNotes_eq, List.take_of_length_le h]
    · rw [hcalls, List.take_of_length_le h]

/-- Witness of C8 on 5000 measures, 1000 holding the note 60 followed by 4000
holding the note 62: the calls carry the 1000 notes of midi 72 and none of
midi 74, as on the first 1000 measures alone; a single measure is processed in
full. -/
theorem extractNotes_first_1000_witness :
    (List.replicate 1000 (noteMeasure 60) ++ List.replicate 4000 (noteMeasure 62)).length
        = 5000
      ∧ extractNotes
          (some { measures := some (List.replicate 1000 (noteMeasure 60)
                                      ++ List.replicate 4000 (noteMeasure 62)) }) true
        = [EditorEffect.setNoteEvents (List.replicate 1000 { midi := 72, duration := 1 / 2 }),
           EditorEffect.onDataChange
             (List.replicate 1000 { midi := 72, duration := 1 / 2 }) none]
      ∧ extractNotes (some { measures := some (List.replicate 1000 (noteMeasure 60)) }) true
        = extractNotes
            (some { measures := some (List.replicate 1000 (noteMeasure 60)
                                        ++ List.replicate 4000 (noteMeasure 62)) }) true
      ∧ extractNotes (some { measures := some [noteMeasure 60] }) true
        = [EditorEffect.setNoteEvents [{ midi := 72, duration := 1 / 2 }],
           EditorEffect.onDataChange [{ midi := 72, duration := 1 / 2 }] none] := by
  have hone : (allTickables [noteMeasure 60]).flatMap tickableNotes
      = [{ midi := 72, duration := 1 / 2 }] := by
    simp [allTickables, noteMeasure, tickableNotes]
  have htake : (List.replicate 1000 (noteMeasure 60)
      ++ List.replicate 4000 (noteMeasure 62)).take 1000
      = List.replicate 1000 (noteMeasure 60) := by
    rw [List.take_append_of_le_length (List.length_replicate _ _).ge,
      List.take_of_length_le (List.length_replicate _ _).le]
  have htake1 : (List.replicate 1000 (noteMeasure 60)).take 1000
      = (List.replicate 1000 (noteMeasure 60)
          ++ List.replicate 4000 (noteMeasure 62)).take 1000 := by
    rw [htake, List.take_of_length_le (List.length_replicate _ _).le]
  have h := extractNotes_first_1000
    (List.replicate 1000 (noteMeasure 60) ++ List.replicate 4000 (noteMeasure 62)) true
  have hshort := (extractNotes_first_1000 [noteMeasure 60] true).2.2.2.2.2.2 (by decide)
  refine ⟨by rw [List.length_append, List.length_replicate, List.length_replicate],
    ?_, (h.2.2.2.2.1 _ htake1).2, ?_⟩
  · rw [h.2.1, htake, notes_of_replicate _ _ 1000 hone]
    rfl
  · rw [hshort.2, hone]
    rfl

/-- C9: for a list of at most 1000 measures, extractNotes produces, in
measure, voice, tickable order, one note per tickable that is not a rest and
none for a rest; each note has duration 0.5 and midi halfTone + 12 (12 when
halfTone is missing or 0); this list is stored with setNoteEvents and passed to
onDataChange as notes with audioUrl null. -/
theorem extractNotes_spec (measures : List Measure) (h : measures.length ≤ 1000) :
    extractedNotes measures
        = ((allTickables measures).filter (fun t => !t.isRest)).map
            (fun t => ({ midi := t.halfTone.getD 0 + 12, duration := 1 / 2 } : NoteEvent))
      ∧ (extractedNotes measures).length
          = (allTickables measures).countP (fun t => !t.isRest)
      ∧ (∀ n ∈ extractedNotes measures, n.duration = 1 / 2)
      ∧ extractNotes (some { measures := some measures }) true
          = [EditorEffect.setNoteEvents (extractedNotes measures),
             EditorEffect.onDataChange (extractedNotes measures) none]
      ∧ extractNotes (some { measures := some measures }) false
          = [EditorEffect.setNoteEvents (extractedNotes measures)] := by
  have heq := extractedNotes_eq measures
  rw [List.take_of_length_le h, flatMap_tickableNotes] at heq
  refine ⟨heq, ?_, ?_, ?_, ?_⟩
  · rw [heq, List.length_map, List.countP_eq_length_filter]
  · intro n hn
    rw [heq, List.mem_map] at hn
    obtain ⟨t, _, rfl⟩ := hn
    rfl
  · simp [extractNotes]
  · simp [extractNotes]

/-- Witness of C9 on one measure holding a note, a rest and a note without
halfTone: two notes, midi 72 and 12. -/
theorem extractNotes_spec_witness :
    extractedNotes
        [{ voices := [{ tickables := [{ isRest := false, halfTone := some 60 },
                                      { isRest := true, halfTone := some 62 },
                                      { isRest := false, halfTone := none }] }] }]
      = [{ midi := 72, duration := 1 / 2 }, { midi := 12, duration := 1 / 2 }] :=
  (extractNotes_spec
    [{ voices := [{ tickables := [{ isRest := false, halfTone := some 60 },
                                  { isRest := true, halfTone := some 62 },
                                  { isRest := false, halfTone := none }] }] }]
    (by decide)).1.trans (by simp [allTickables])

end ScoreEditor

namespace ScoreViewer

/-! ## Guards of `handlePlayScore` -/

/-- C4: when the sampler is absent or not loaded, or the renderer is absent,
handlePlayScore only shows the not-ready alert: no trigger, no cursor call, no
Transport call, no fetch and no parse is made, nothing is scheduled on the
transport, and the playing flag keeps its value. -/
theorem handlePlayScore_not_ready (env : Env)
    (h : env.sampler = none ∨ env.sampler = some false ∨ env.hasOsmd = false) :
    handlePlayScore env = [Effect.alert notReadyMessage]
      ∧ (∀ e ∈ handlePlayScore env,
          isTrigger e = false ∧ isCursorCall e = false ∧ isTransportCall e = false
            ∧ (∀ url, e ≠ Effect.fetch url) ∧ (∀ xml, e ≠ Effect.parse xml)
            ∧ (∀ b, e ≠ Effect.setPlaying b))
      ∧ (∀ playing, playingAfter playing (handlePlayScore env) = playing)
      ∧ (∀ (σ : Type) (M : CursorModel σ) (c : σ),
          transportRun M c (handlePlayScore env) = []) := by
  have htrace : handlePlayScore env = [Effect.alert notReadyMessage] := by
    unfold handlePlayScore
    rcases h with h | h | h <;> simp [h]
  rw [htrace]
  refine ⟨rfl, ?_, ?_, ?_⟩
  · intro e he
    rw [List.mem_singleton] at he
    subst he
    simp [isTrigger, isCursorCall, isTransportCall]
  · intro playing
    rfl
  · intro σ M c
    rfl

/-- Witness of C4: a sampler that is still loading. -/
theorem handlePlayScore_not_ready_witness :
    handlePlayScore
        { sampler := some false, hasOsmd := true, xmlUrl := "score.xml",
          fetched := some "<score-partwise/>",
          parseMusicXMLToNotes := fun _ => some { notes := some [], tempo := some 120 },
          toneOk := true }
      = [Effect.alert notReadyMessage] :=
  (handlePlayScore_not_ready _ (Or.inr (Or.inl rfl))).1

/-- C5: with the sampler loaded and the renderer present, when the parser
returns an empty or missing note list, whatever the tempo, handlePlayScore
fetches and parses the score and stops: no trigger, no cursor call, no part and
no timer, nothing runs on the transport, and playing ends false. -/
theorem handlePlayScore_no_notes (env : Env) (xml : String) (parsed : Parsed)
    (hs : env.sampler = some true) (ho : env.hasOsmd = true)
    (hf : env.fetched = some xml) (hp : env.parseMusicXMLToNotes xml = some parsed)
    (hn : parsed.notes = none ∨ parsed.notes = some []) :
    handlePlayScore env
        = [Effect.setPlaying true, Effect.fetch env.xmlUrl, Effect.parse xml,
           Effect.setPlaying false]
      ∧ (∀ e ∈ handlePlayScore env,
          isTrigger e = false ∧ isCursorCall e = false
            ∧ (∀ bpm events, e ≠ Effect.newPart bpm events)
            ∧ (∀ ms, e ≠ Effect.setTimeout ms))
      ∧ (∀ playing, playingAfter playing (handlePlayScore env) = false)
      ∧ (∀ (σ : Type) (M : CursorModel σ) (c : σ),
          transportRun M c (handlePlayScore env) = []) := by
  have htrace : handlePlayScore env
      = [Effect.setPlaying true, Effect.fetch env.xmlUrl, Effect.parse xml,
         Effect.setPlaying false] := by
    unfold handlePlayScore
    rcases hn with hn | hn <;> simp [hs, ho, hf, hp, hn]
  rw [htrace]
  refine ⟨rfl, ?_, ?_, ?_⟩
  · intro e he
    simp only [List.mem_cons, List.mem_singleton, List.not_mem_nil, or_false] at he
    rcases he with rfl | rfl | rfl | rfl <;> simp [isTrigger, isCursorCall]
  · intro playing
    rfl
  · intro σ M c
    rfl

/-- Witness of C5: a score without notes at tempo 90. -/
theorem handlePlayScore_no_notes_witness :
    handlePlayScore
        { sampler := some true, hasOsmd := true, xmlUrl := "score.xml",
          fetched := some "<score-partwise/>",
          parseMusicXMLToNotes := fun _ => some { notes := some [], tempo := some 90 },
          toneOk := true }
      = [Effect.setPlaying true, Effect.fetch "score.xml", Effect.parse "<score-partwise/>",
         Effect.setPlaying false] :=
  (handlePlayScore_no_notes _ "<score-partwise/>" { notes := some [], tempo := some 90 }
    rfl rfl rfl rfl (Or.inr rfl)).1

/-! ## The callbacks fired by the transport -/

theorem firePart_length {σ : Type} (M : CursorModel σ) (bpm : Rat) (es : List Note)
    (st : PlaybackState σ) : (firePart M bpm es st).length = es.length := by
  induction es generalizing st with
  | nil => rfl
  | cons e es ih => simp [firePart, ih]

theorem partCallback_triggers {σ : Type} (M : CursorModel σ) (bpm time : Rat) (e : Note)
    (st : PlaybackState σ) :
    (partCallback M bpm time e st).1.filter isTrigger
      = [Effect.trigger (JS.replaceAll e.note '#' 's') (e.duration * (60 / bpm)) time] := by
  unfold partCallback drawCallback
  by_cases hm : st.cursorMoved = true
  · by_cases he : M.endReached st.cursor = true <;> simp [hm, he, isTrigger]
  · simp [hm, isTrigger]

theorem firePart_triggers {σ : Type} (M : CursorModel σ) (bpm : Rat) (es : List Note)
    (st : PlaybackState σ) :
    ((firePart M bpm es st).flatMap (fun s => s.2)).filter isTrigger
      = es.map (fun e =>
          Effect.trigger (JS.replaceAll e.note '#' 's') (e.duration * (60 / bpm)) e.time) := by
  induction es generalizing st with
  | nil => rfl
  | cons e es ih =>
    simp only [firePart, List.flatMap_cons, List.filter_append, List.map_cons]
    rw [partCallback_triggers, ih]
    rfl

/-- The cursor calls of one fired event once the cursor has been shown. -/
theorem partCallback_moved {σ : Type} (M : CursorModel σ) (bpm time : Rat) (e : Note)
    (c : σ) :
    (partCallback M bpm time e { cursorMoved := true, cursor := c }).1.filter isCursorCall
        = (if M.endReached c then [] else [Effect.cursorNext])
      ∧ (partCallback M bpm time e { cursorMoved := true, cursor := c }).2
        = { cursorMoved := true, cursor := if M.endReached c then c else M.onNext c } := by
  unfold partCallback drawCallback
  by_cases he : M.endReached c = true <;> simp [he, isCursorCall]

/-- The first fired event shows the cursor and makes no other cursor call. -/
theorem partCallback_first {σ : Type} (M : CursorModel σ) (bpm time : Rat) (e : Note)
    (c : σ) :
    (partCallback M bpm time e { cursorMoved := false, cursor := c }).1.filter isCursorCall
        = [Effect.cursorShow]
      ∧ (partCallback M bpm time e { cursorMoved := false, cursor := c }).2
        = { cursorMoved := true, cursor := M.onShow c } := by
  unfold partCallback drawCallback
  simp [isCursorCall]

theorem firePart_moved_step {σ : Type} (M : CursorModel σ) (bpm : Rat) (es : List Note)
    (c : σ) (k : Nat) (s : σ × List Effect)
    (hs : (firePart M bpm es { cursorMoved := true, cursor := c })[k]? = some s) :
    s.2.filter isCursorCall = if M.endReached s.1 then [] else [Effect.cursorNext] := by
  induction es generalizing c k with
  | nil => simp [firePart] at hs
  | cons e es ih =>
    cases k with
    | zero =>
      simp only [firePart, List.getElem?_cons_zero, Option.some.injEq] at hs
      subst hs
      exact (partCallback_moved M bpm e.time e c).1
    | succ k =>
      simp only [firePart, List.getElem?_cons_succ] at hs
      rw [(partCallback_moved M bpm e.time e c).2] at hs
      exact ih _ k hs

theorem firePart_at_end {σ : Type} (M : CursorModel σ) (bpm : Rat) (es : List Note)
    (c : σ) (hc : M.endReached c = true) (k : Nat) (s : σ × List Effect)
    (hs : (firePart M bpm es { cursorMoved := true, cursor := c })[k]? = some s) :
    s.1 = c ∧ s.2.filter isCursorCall = [] := by
  induction es generalizing k with
  | nil => simp [firePart] at hs
  | cons e es ih =>
    cases k with
    | zero =>
      simp only [firePart, List.getElem?_cons_zero, Option.some.injEq] at hs
      subst hs
      refine ⟨rfl, ?_⟩
      rw [(partCallback_moved M bpm e.time e c).1]
      simp [hc]
    | succ k =>
      simp only [firePart, List.getElem?_cons_succ] at hs
      rw [(partCallback_moved M bpm e.time e c).2] at hs
      simp only [hc, if_true] at hs
      exact ih k hs

theorem firePart_after_end {σ : Type} (M : CursorModel σ) (bpm : Rat) (es : List Note)
    (c : σ) (j k : Nat) (sj sk : σ × List Effect) (hjk : j ≤ k)
    (hj : (firePart M bpm es { cursorMoved := true, cursor := c })[j]? = some sj)
    (hk : (firePart M bpm es { cursorMoved := true, cursor := c })[k]? = some sk)
    (hend : M.endReached sj.1 = true) :
    sk.2.filter isCursorCall = [] := by
  induction es generalizing c j k with
  | nil => simp [firePart] at hj
  | cons e es ih =>
    cases j with
    | zero =>
      have hc : sj.1 = c := by
        simp only [firePart, List.getElem?_cons_zero, Option.some.injEq] at hj
        rw [← hj]
      rw [hc] at hend
      exact (firePart_at_end M bpm (e :: es) c hend k sk hk).2
    | succ j =>
      cases k with
      | zero => omega
      | succ k =>
        simp only [firePart, List.getElem?_cons_succ] at hj hk
        rw [(partCallback_moved M bpm e.time e c).2] at hj hk
        exact ih _ j k (by omega) hj hk

theorem firePart_moved_no_show {σ : Type} (M : CursorModel σ) (bpm : Rat) (es : List Note)
    (c : σ) :
    ((firePart M bpm es { cursorMoved := true, cursor := c }).flatMap (fun s => s.2)).count
      Effect.cursorShow = 0 := by
  induction es generalizing c with
  | nil => rfl
  | cons e es ih =>
    simp only [firePart, List.flatMap_cons, List.count_append]
    rw [(partCallback_moved M bpm e.time e c).2, ih]
    unfold partCallback drawCallback
    by_cases he : M.endReached c = true <;> simp [he]

/-- C7: when the events of a part (at least one) fire in order against a
cursor, every event makes one visual step; the first event calls cursor.show()
and nothing else on the cursor; every later event calls cursor.next() once if
the iterator has not reached the end and makes no cursor call if it has;
show is called once in all; and once a later event finds the end reached, no
event from then on calls next. Start times play no part, so the notes of a
chord get one visual step each. -/
theorem visual_steps {σ : Type} (M : CursorModel σ) (bpm : Rat) (e : Note)
    (es : List Note) (c : σ) :
    (firePart M bpm (e :: es) { cursorMoved := false, cursor := c }).length
        = (e :: es).length
      ∧ (∃ s, (firePart M bpm (e :: es) { cursorMoved := false, cursor := c })[0]? = some s
          ∧ s.1 = c ∧ s.2.filter isCursorCall = [Effect.cursorShow])
      ∧ (∀ k s, 1 ≤ k →
          (firePart M bpm (e :: es) { cursorMoved := false, cursor := c })[k]? = some s →
          s.2.filter isCursorCall
            = if M.endReached s.1 then [] else [Effect.cursorNext])
      ∧ ((firePart M bpm (e :: es) { cursorMoved := false, cursor := c }).flatMap
            (fun s => s.2)).count Effect.cursorShow = 1
      ∧ (∀ j k sj sk, 1 ≤ j → j ≤ k →
          (firePart M bpm (e :: es) { cursorMoved := false, cursor := c })[j]? = some sj →
          (firePart M bpm (e :: es) { cursorMoved := false, cursor := c })[k]? = some sk →
          M.endReached sj.1 = true →
          sk.2.filter isCursorCall = []) := by
  have hfirst := partCallback_first M bpm e.time e c
  refine ⟨firePart_length _ _ _ _,
    ⟨(c, (partCallback M bpm e.time e { cursorMoved := false, cursor := c }).1),
      by simp [firePart], rfl, hfirst.1⟩, ?_, ?_, ?_⟩
  · intro k s hk hs
    obtain ⟨k, rfl⟩ : ∃ k0, k = k0 + 1 := ⟨k - 1, by omega⟩
    simp only [firePart, List.getElem?_cons_succ] at hs
    rw [hfirst.2] at hs
    exact firePart_moved_step M bpm es _ k s hs
  · simp only [firePart, List.flatMap_cons, List.count_append]
    rw [hfirst.2, firePart_moved_no_show]
    unfold partCallback drawCallback
    simp
  · intro j k sj sk hj hjk hsj hsk hend
    obtain ⟨j, rfl⟩ : ∃ j0, j = j0 + 1 := ⟨j - 1, by omega⟩
    obtain ⟨k, rfl⟩ : ∃ k0, k = k0 + 1 := ⟨k - 1, by omega⟩
    simp only [firePart, List.getElem?_cons_succ] at hsj hsk
    rw [hfirst.2] at hsj hsk
    exact firePart_after_end M bpm es _ j k sj sk (by omega) hsj hsk hend

/-- Witness of C7: a chord of two notes on beat 0 and a third note on beat 1,
over a cursor that has one step left: the second event (index 1) advances. -/
theorem visual_steps_witness :
    (1 : Nat) ≤ 1
      ∧ (firePart (counterCursor 1) 120
            [{ note := "C4", time := 1 / 5, duration := 1 },
             { note := "E4", time := 1 / 5, duration := 1 },
             { note := "G4", time := 6 / 5, duration := 1 }]
            { cursorMoved := false, cursor := 0 })[1]?
          = some (0, [Effect.trigger "E4" (1 * (60 / 120)) (1 / 5), Effect.cursorNext])
      ∧ [Effect.trigger "E4" (1 * (60 / 120)) (1 / 5), Effect.cursorNext].filter isCursorCall
          = if (counterCursor 1).endReached 0 then [] else [Effect.cursorNext] :=
  ⟨Nat.le_refl 1,
    by simp [firePart, partCallback, drawCallback, counterCursor, JS.replaceAll],
    (visual_steps (counterCursor 1) 120 { note := "C4", time := 1 / 5, duration := 1 }
      [{ note := "E4", time := 1 / 5, duration := 1 },
       { note := "G4", time := 6 / 5, duration := 1 }] 0).2.2.1 1
      (0, [Effect.trigger "E4" (1 * (60 / 120)) (1 / 5), Effect.cursorNext])
      (Nat.le_refl 1)
      (by simp [firePart, partCallback, drawCallback, counterCursor, JS.replaceAll])⟩

/-! ## The playing path of `handlePlayScore` -/

/-- The trace of a call that starts playback: the note list is not empty and
every awaited promise resolves. -/
theorem handlePlayScore_plays (env : Env) (xml : String) (n : Note) (ns : List Note)
    (tempo : Option Rat)
    (hs : env.sampler = some true) (ho : env.hasOsmd = true)
    (hf : env.fetched = some xml)
    (hp : env.parseMusicXMLToNotes xml = some { notes := some (n :: ns), tempo := tempo })
    (ht : env.toneOk = true) (hb : 0 ≤ bpmOf tempo) :
    handlePlayScore env
      = [Effect.setPlaying true, Effect.fetch env.xmlUrl, Effect.parse xml,
         Effect.toneStart, Effect.toneLoaded,
         Effect.transportCancel, Effect.transportStop, Effect.transportSetBpm (bpmOf tempo),
         Effect.cursorReset, Effect.cursorHide,
         Effect.newPart (bpmOf tempo) (partEvents (n :: ns)),
         Effect.partStart 0, Effect.transportStart "+0.1",
         Effect.setTimeout (finalizeDelayMs ((n :: ns).getLast (List.cons_ne_nil n ns)))] := by
  unfold handlePlayScore
  simp [hs, ho, hf, hp, ht, transportAcceptsBpm, hb]

/-- The trace of a call whose bpm the transport refuses: the assignment throws
and the `catch` runs. -/
theorem handlePlayScore_refused (env : Env) (xml : String) (n : Note) (ns : List Note)
    (tempo : Option Rat)
    (hs : env.sampler = some true) (ho : env.hasOsmd = true)
    (hf : env.fetched = some xml)
    (hp : env.parseMusicXMLToNotes xml = some { notes := some (n :: ns), tempo := tempo })
    (ht : env.toneOk = true) (hb : bpmOf tempo < 0) :
    handlePlayScore env
      = [Effect.setPlaying true, Effect.fetch env.xmlUrl, Effect.parse xml,
         Effect.toneStart, Effect.toneLoaded,
         Effect.transportCancel, Effect.transportStop, Effect.setPlaying false] := by
  unfold handlePlayScore
  simp [hs, ho, hf, hp, ht, transportAcceptsBpm, hb]

/-- The times of the events handed to the part: the parsed `time` plus 0.2,
whatever the tempo. -/
theorem partEvents_time (notes : List Note) :
    (partEvents notes).map (fun e => e.time) = notes.map (fun n => n.time + 1 / 5) := by
  simp [partEvents, delayBeforeStart, List.map_map, Function.comp_def]

/-- The timer delay in milliseconds: the last note's parsed `time` plus its
parsed `duration` plus 0.2 plus 0.5, times 1000, whatever the tempo. -/
theorem finalizeDelayMs_eq (last : Note) :
    finalizeDelayMs last = (last.time + last.duration + 1 / 5 + 1 / 2) * 1000 := by
  simp [finalizeDelayMs, totalDuration, delayBeforeStart]

/-- The load effect of ScoreViewer never hands a text containing an entity
declaration to the renderer. -/
theorem viewer_load_refuses_entity (xmlUrl : Option String) (xml : String) (loadOk : Bool)
    (errMsg : String) (hasSampler : Bool) (h : JS.includes xml "<!ENTITY" = true) :
    ∀ text, Effect.osmdLoad text ∉ loadEffect xmlUrl (some xml) loadOk errMsg hasSampler := by
  intro text
  unfold loadEffect
  cases xmlUrl with
  | none => simp
  | some url =>
    by_cases hu : url = "" <;> cases hasSampler <;> simp [hu, h]

/-- C1 at the scenario of the specification, bpm 120: the events handed to the
part have times 0.2 and 1.2, where startBeat*60/bpm + 0.2 gives 0.2 and 0.7. -/
theorem handlePlayScore_times_at_120 :
    Effect.newPart 120
        [{ note := "C4", time := 1 / 5, duration := 1 },
         { note := "E4", time := 6 / 5, duration := 1 }]
        ∈ handlePlayScore (readyEnv "<score-partwise/>"
            { notes := some twoNotes, tempo := some 120 })
      ∧ (partEvents twoNotes).map (fun e => e.time) = [1 / 5, 6 / 5]
      ∧ twoNotes.map (fun n => n.time * 60 / 120 + 1 / 5) = [1 / 5, 7 / 10]
      ∧ (partEvents twoNotes).map (fun e => e.time)
          ≠ twoNotes.map (fun n => n.time * 60 / 120 + 1 / 5) := by
  have h1 : (partEvents twoNotes).map (fun e => e.time) = [1 / 5, 6 / 5] := by
    simp [partEvents, twoNotes, delayBeforeStart]
    norm_num
  have h2 : twoNotes.map (fun n => n.time * 60 / 120 + 1 / 5) = [1 / 5, 7 / 10] := by
    simp [twoNotes]
    norm_num
  refine ⟨?_, h1, h2, ?_⟩
  · rw [handlePlayScore_plays _ "<score-partwise/>" _ _ (some 120) rfl rfl rfl rfl rfl
      (by norm_num [bpmOf])]
    simp [partEvents, twoNotes, delayBeforeStart, bpmOf]
    norm_num
  · rw [h1, h2]
    norm_num

/-- C3 at the scenario of the specification, bpm 120: the timer is set to
2700 ms, where (startBeat + durationBeats)*60/bpm + 0.2 + 0.5 gives 1700 ms. -/
theorem handlePlayScore_timer_at_120 :
    Effect.setTimeout 2700
        ∈ handlePlayScore (readyEnv "<score-partwise/>"
            { notes := some twoNotes, tempo := some 120 })
      ∧ Effect.setTimeout 1700
        ∉ handlePlayScore (readyEnv "<score-partwise/>"
            { notes := some twoNotes, tempo := some 120 })
      ∧ (((1 : Rat) + 1) * 60 / 120 + 1 / 5 + 1 / 2) * 1000 = 1700 := by
  rw [handlePlayScore_plays _ "<score-partwise/>" _ _ (some 120) rfl rfl rfl rfl rfl
      (by norm_num [bpmOf])]
  simp [finalizeDelayMs, totalDuration, delayBeforeStart]
  norm_num

/-- The calls made by the transport for the part of a call that starts
playback. -/
theorem transportRun_plays {σ : Type} (M : CursorModel σ) (c : σ) (env : Env)
    (xml : String) (n : Note) (ns : List Note) (tempo : Option Rat)
    (hs : env.sampler = some true) (ho : env.hasOsmd = true)
    (hf : env.fetched = some xml)
    (hp : env.parseMusicXMLToNotes xml = some { notes := some (n :: ns), tempo := tempo })
    (ht : env.toneOk = true) (hb : 0 ≤ bpmOf tempo) :
    transportRun M c (handlePlayScore env)
      = (firePart M (bpmOf tempo)
          (firedEvents (partEvents (n :: ns))
            (some (finalizeDelayMs ((n :: ns).getLast (List.cons_ne_nil n ns)))))
          { cursorMoved := false, cursor := c }).flatMap (fun s => s.2) := by
  rw [handlePlayScore_plays env xml n ns tempo hs ho hf hp ht hb]
  simp [transportRun, timerOf]

/-- C2 at the one-note score C#4 on beat 0 for one beat, bpm 120: the
synthesizer is called once, with the pitch "Cs4" and not "C#4", for 0.5 s at
0.2 s. -/
theorem handlePlayScore_sharp_pitch :
    transportRun (counterCursor 1) 0
        (handlePlayScore (readyEnv "<score-partwise/>"
          { notes := some [{ note := "C#4", time := 0, duration := 1 }],
            tempo := some 120 }))
        = [Effect.trigger "Cs4" (1 / 2) (1 / 5), Effect.cursorShow]
      ∧ Effect.trigger "C#4" (1 / 2) (1 / 5)
        ∉ transportRun (counterCursor 1) 0
            (handlePlayScore (readyEnv "<score-partwise/>"
              { notes := some [{ note := "C#4", time := 0, duration := 1 }],
                tempo := some 120 })) := by
  rw [transportRun_plays (counterCursor 1) 0 _ "<score-partwise/>" _ _ (some 120)
    rfl rfl rfl rfl rfl
      (by norm_num [bpmOf])]
  have hname : JS.replaceAll "C#4" '#' 's' = "Cs4" := by decide
  have hfired : firedEvents (partEvents [{ note := "C#4", time := 0, duration := 1 }])
      (some (finalizeDelayMs
        ([({ note := "C#4", time := 0, duration := 1 } : Note)].getLast
          (List.cons_ne_nil _ _))))
      = [{ note := "C#4", time := 1 / 5, duration := 1 }] := by
    simp [firedEvents, partEvents, finalizeDelayMs, totalDuration, delayBeforeStart,
      transportStartDelay]
    norm_num
  rw [hfired]
  simp [firePart, partCallback, drawCallback, bpmOf, hname]
  norm_num

/-- C6 fails at tempo 0: for the one-note score C4 with a parsed tempo of 0,
which is not > 0, a part is scheduled at bpm 120 and the synthesizer is
triggered. -/
theorem handlePlayScore_zero_tempo_plays :
    ¬ ((0 : Rat) > 0)
      ∧ Effect.newPart 120 [{ note := "C4", time := 1 / 5, duration := 1 }]
        ∈ handlePlayScore (readyEnv "<score-partwise/>"
            { notes := some [{ note := "C4", time := 0, duration := 1 }],
              tempo := some 0 })
      ∧ Effect.trigger "C4" (1 / 2) (1 / 5)
        ∈ transportRun (counterCursor 1) 0
            (handlePlayScore (readyEnv "<score-partwise/>"
              { notes := some [{ note := "C4", time := 0, duration := 1 }],
                tempo := some 0 })) := by
  refine ⟨by norm_num, ?_, ?_⟩
  · rw [handlePlayScore_plays _ "<score-partwise/>" _ _ (some 0) rfl rfl rfl rfl rfl
      (by norm_num [bpmOf])]
    simp [partEvents, bpmOf, delayBeforeStart]
  · rw [transportRun_plays (counterCursor 1) 0 _ "<score-partwise/>" _ _ (some 0)
      rfl rfl rfl rfl rfl
      (by norm_num [bpmOf])]
    have hname : JS.replaceAll "C4" '#' 's' = "C4" := by decide
    have hfired : firedEvents (partEvents [{ note := "C4", time := 0, duration := 1 }])
        (some (finalizeDelayMs
          ([({ note := "C4", time := 0, duration := 1 } : Note)].getLast
            (List.cons_ne_nil _ _))))
        = [{ note := "C4", time := 1 / 5, duration := 1 }] := by
      simp [firedEvents, partEvents, finalizeDelayMs, totalDuration, delayBeforeStart,
        transportStartDelay]
      norm_num
    rw [hfired]
    simp [firePart, partCallback, drawCallback, bpmOf, hname]
    norm_num

/-- An event is fired exactly when it is an event of the part and is due
before the timer. -/
theorem mem_firedEvents (events : List Note) (ms : Rat) (e : Note) :
    e ∈ firedEvents events (some ms)
      ↔ e ∈ events ∧ (1 / 10 + e.time) * 1000 < ms := by
  simp [firedEvents, transportStartDelay, List.mem_filter,
    (List.perm_insertionSort (fun a b : Note => a.time ≤ b.time) events).mem_iff]

/-- The events are fired in order of transport time. -/
theorem sorted_firedEvents (events : List Note) (timer : Option Rat) :
    (firedEvents events timer).Sorted (fun a b => a.time ≤ b.time) := by
  haveI : IsTotal Note (fun a b => a.time ≤ b.time) := ⟨fun a b => le_total a.time b.time⟩
  haveI : IsTrans Note (fun a b => a.time ≤ b.time) :=
    ⟨fun _ _ _ hab hbc => le_trans hab hbc⟩
  have hsorted := List.sorted_insertionSort (fun a b : Note => a.time ≤ b.time) events
  cases timer with
  | none => exact hsorted
  | some ms => exact List.Pairwise.filter _ hsorted

/-- C6 as amended: for a note list that is not empty, a negative parsed tempo
is rejected: the transport refuses the bpm, the catch runs, and no part is
created, no timer is set, no synthesizer trigger is made and playing ends
false; a parsed tempo that is zero or missing is not rejected: the tempo used
is 120, the transport is set to it, the part is created with one event per note
and the timer is set, and the transport triggers the synthesizer, with
durations computed at bpm 120, for the events due before the timer, in order
of time. -/
theorem handlePlayScore_default_tempo (env : Env) (xml : String) (n : Note)
    (ns : List Note) (tempo : Option Rat)
    (hs : env.sampler = some true) (ho : env.hasOsmd = true)
    (hf : env.fetched = some xml)
    (hp : env.parseMusicXMLToNotes xml = some { notes := some (n :: ns), tempo := tempo })
    (ht : env.toneOk = true) :
    (∀ t, tempo = some t → t < 0 →
        handlePlayScore env
          = [Effect.setPlaying true, Effect.fetch env.xmlUrl, Effect.parse xml,
             Effect.toneStart, Effect.toneLoaded,
             Effect.transportCancel, Effect.transportStop, Effect.setPlaying false]
        ∧ (∀ e ∈ handlePlayScore env,
            isTrigger e = false ∧ (∀ bpm events, e ≠ Effect.newPart bpm events)
              ∧ (∀ ms, e ≠ Effect.setTimeout ms))
        ∧ (∀ (σ : Type) (M : CursorModel σ) (c : σ),
            transportRun M c (handlePlayScore env) = [])
        ∧ (∀ playing, playingAfter playing (handlePlayScore env) = false))
      ∧ (tempo = none ∨ tempo = some 0 →
        bpmOf tempo = 120
        ∧ handlePlayScore env
          = [Effect.setPlaying true, Effect.fetch env.xmlUrl, Effect.parse xml,
             Effect.toneStart, Effect.toneLoaded,
             Effect.transportCancel, Effect.transportStop, Effect.transportSetBpm 120,
             Effect.cursorReset, Effect.cursorHide,
             Effect.newPart 120 (partEvents (n :: ns)),
             Effect.partStart 0, Effect.transportStart "+0.1",
             Effect.setTimeout (finalizeDelayMs ((n :: ns).getLast (List.cons_ne_nil n ns)))]
        ∧ (partEvents (n :: ns)).length = (n :: ns).length
        ∧ (∀ (σ : Type) (M : CursorModel σ) (c : σ),
            (transportRun M c (handlePlayScore env)).filter isTrigger
              = (firedEvents (partEvents (n :: ns))
                  (some (finalizeDelayMs ((n :: ns).getLast (List.cons_ne_nil n ns))))).map
                  (fun e =>
                    Effect.trigger (JS.replaceAll e.note '#' 's')
                      (e.duration * (60 / 120)) e.time))
        ∧ (∀ e,
            e ∈ firedEvents (partEvents (n :: ns))
                (some (finalizeDelayMs ((n :: ns).getLast (List.cons_ne_nil n ns))))
              ↔ e ∈ partEvents (n :: ns)
                ∧ (1 / 10 + e.time) * 1000
                  < finalizeDelayMs ((n :: ns).getLast (List.cons_ne_nil n ns)))
        ∧ (firedEvents (partEvents (n :: ns))
            (some (finalizeDelayMs ((n :: ns).getLast (List.cons_ne_nil n ns))))).Sorted
            (fun a b => a.time ≤ b.time)) := by
  refine ⟨?_, ?_⟩
  · intro t htempo hneg
    have hb : bpmOf tempo < 0 := by
      subst htempo
      have ht0 : t ≠ 0 := ne_of_lt hneg
      simpa [bpmOf, ht0] using hneg
    have htrace := handlePlayScore_refused env xml n ns tempo hs ho hf hp ht hb
    rw [htrace]
    refine ⟨rfl, ?_, ?_, ?_⟩
    · intro e he
      simp only [List.mem_cons, List.mem_singleton, List.not_mem_nil, or_false] at he
      rcases he with rfl | rfl | rfl | rfl | rfl | rfl | rfl | rfl <;> simp [isTrigger]
    · intro σ M c
      rfl
    · intro playing
      rfl
  · intro hz
    have hb : bpmOf tempo = 120 := by
      rcases hz with rfl | rfl <;> simp [bpmOf]
    have hpos : 0 ≤ bpmOf tempo := by
      rw [hb]
      norm_num
    refine ⟨hb, ?_, by simp [partEvents], ?_, ?_, sorted_firedEvents _ _⟩
    · rw [handlePlayScore_plays env xml n ns tempo hs ho hf hp ht hpos, hb]
    · intro σ M c
      rw [transportRun_plays M c env xml n ns tempo hs ho hf hp ht hpos, hb]
      exact firePart_triggers M 120 _ _
    · intro e
      exact mem_firedEvents _ _ e

/-- Witness of C6 as amended: a one-note score at tempo -60 is refused; the
score C4 on beat 0, E4 on beat 10 and G3 on beat 0 without tempo plays at
bpm 120, the timer is taken from G3, and the synthesizer is triggered for C4
and G3, in this order, and not for E4. -/
theorem handlePlayScore_default_tempo_witness :
    (-60 : Rat) < 0
      ∧ handlePlayScore (readyEnv "<score-partwise/>"
          { notes := some [{ note := "C4", time := 0, duration := 1 }],
            tempo := some (-60) })
        = [Effect.setPlaying true, Effect.fetch "score.xml",
           Effect.parse "<score-partwise/>", Effect.toneStart, Effect.toneLoaded,
           Effect.transportCancel, Effect.transportStop, Effect.setPlaying false]
      ∧ (transportRun (counterCursor 3) 0
          (handlePlayScore (readyEnv "<score-partwise/>"
            { notes := some [{ note := "C4", time := 0, duration := 1 },
                             { note := "E4", time := 10, duration := 1 },
                             { note := "G3", time := 0, duration := 1 }],
              tempo := none }))).filter isTrigger
        = [Effect.trigger "C4" (1 / 2) (1 / 5), Effect.trigger "G3" (1 / 2) (1 / 5)] := by
  have hneg := (handlePlayScore_default_tempo
    (readyEnv "<score-partwise/>"
      { notes := some [{ note := "C4", time := 0, duration := 1 }], tempo := some (-60) })
    "<score-partwise/>" { note := "C4", time := 0, duration := 1 } [] (some (-60))
    rfl rfl rfl rfl rfl).1 (-60) rfl (by norm_num)
  have hplay := (handlePlayScore_default_tempo
    (readyEnv "<score-partwise/>"
      { notes := some [{ note := "C4", time := 0, duration := 1 },
                       { note := "E4", time := 10, duration := 1 },
                       { note := "G3", time := 0, duration := 1 }],
        tempo := none })
    "<score-partwise/>" { note := "C4", time := 0, duration := 1 }
    [{ note := "E4", time := 10, duration := 1 }, { note := "G3", time := 0, duration := 1 }]
    none rfl rfl rfl rfl rfl).2 (Or.inl rfl)
  refine ⟨by norm_num, hneg.1, ?_⟩
  rw [hplay.2.2.2.1 Nat (counterCursor 3) 0]
  have h1 : JS.replaceAll "C4" '#' 's' = "C4" := by decide
  have h2 : JS.replaceAll "G3" '#' 's' = "G3" := by decide
  simp [firedEvents, partEvents, finalizeDelayMs, totalDuration, delayBeforeStart,
    transportStartDelay, List.insertionSort, List.orderedInsert, List.filter, h1, h2]
  norm_num [h1, h2]

/-- C10 at a text that declares an entity: the load effects of both components
refuse it, and handlePlayScore hands it to parseMusicXMLToNotes. -/
theorem handlePlayScore_parses_entity :
    JS.includes entityXml "<!ENTITY" = true
      ∧ ScoreEditor.loadEffect (some entityXml) true true (fun _ => some []) true = []
      ∧ (∀ text, Effect.osmdLoad text
          ∉ loadEffect (some "score.xml") (some entityXml) true "error" true)
      ∧ Effect.parse entityXml
        ∈ handlePlayScore (readyEnv entityXml
            { notes := some twoNotes, tempo := some 120 }) := by
  have hinc : JS.includes entityXml "<!ENTITY" = true := by decide
  refine ⟨hinc, ?_, viewer_load_refuses_entity _ _ _ _ _ hinc, ?_⟩
  · simp [ScoreEditor.loadEffect, hinc]
  · rw [handlePlayScore_plays _ entityXml _ _ (some 120) rfl rfl rfl rfl rfl
      (by norm_num [bpmOf])]
    simp

end ScoreViewer

namespace ScoreEditor

/-- The load effect of ScoreEditor does nothing at all on a text containing an
entity declaration. -/
theorem editor_load_refuses_entity (xml : String) (hasContainer loadOk : Bool)
    (measuresOf : String → Option (List Measure)) (hasOnDataChange : Bool)
    (h : JS.includes xml "<!ENTITY" = true) :
    loadEffect (some xml) hasContainer loadOk measuresOf hasOnDataChange = [] := by
  simp [loadEffect, h]

end ScoreEditor
